import Mathlib

/-!
Verification development for the `pyunlocbox` function-object module
(`pyunlocbox/functions.py`).  Python functions are shallowly embedded:
numeric arrays become lists of rationals (or reals where the source uses
`sqrt`), fallible code returns `Except PyErr`, and the NumPy NaN/Inf
behaviour of float division is made explicit where the source relies on it.
-/

/-- Python exception kinds raised by the embedded code paths. -/
inductive PyErr where
  | notImplemented
  | typeError
  | attributeError
  | valueError
  | axisError
  deriving DecidableEq, Repr

/-! ## Soft threshold (`_soft_threshold`, lines 29-73)

The default `handle_complex=True` branch computes
`sz = np.maximum(np.abs(z)-T, 0)` and then
`np.nan_to_num(np.float64(sz) / (sz+T) * z)`.
When `sz + T = 0`, the float division `0/0` yields NaN and `nan_to_num`
maps it to `0` (for a nonnegative threshold `T`, `sz + T = 0` forces
`sz = 0`); the embedding makes that guard explicit. -/
def softThreshold (z T : ℚ) : ℚ :=
  let sz := max (|z| - T) 0
  if sz + T = 0 then 0 else sz / (sz + T) * z

/-- Model of `np.sign` on real scalars. -/
def pySign (z : ℚ) : ℚ :=
  if 0 < z then 1 else if z < 0 then -1 else 0

/-- Specification-side form of the soft threshold, written from the spec
words: `sign(z) * max(|z| - T, 0)`. -/
def softThresholdSpecForm (z T : ℚ) : ℚ :=
  pySign z * max (|z| - T) 0

/-- C6: for every real input `z` and threshold `T ≥ 0`, the soft threshold
equals `sign(z) * max(|z|-T, 0)` (the 0/0 edge case yielding 0, not NaN);
in particular `soft_threshold(z, 0) = z` and `soft_threshold(0, T) = 0`. -/
theorem soft_threshold_spec (z T : ℚ) (hT : 0 ≤ T) :
    softThreshold z T = softThresholdSpecForm z T ∧
    softThreshold z 0 = z ∧ softThreshold 0 T = 0 := by
  refine ⟨?_, ?_, ?_⟩
  · unfold softThreshold softThresholdSpecForm pySign
    rcases lt_trichotomy z 0 with hz | hz | hz
    · by_cases hle : |z| ≤ T
      · have hsz : max (|z| - T) 0 = 0 := max_eq_right (by linarith)
        have habs : 0 < |z| := abs_pos.mpr (ne_of_lt hz)
        have hTpos : 0 < T := lt_of_lt_of_le habs hle
        simp only [hsz, zero_add, hz, if_neg (not_lt.mpr (le_of_lt hz))]
        rw [if_neg (ne_of_gt hTpos)]
        simp [hz]
      · push_neg at hle
        have hsz : max (|z| - T) 0 = |z| - T := max_eq_left (by linarith)
        have habs : |z| = -z := abs_of_neg hz
        have hne : |z| - T + T ≠ 0 := by
          have : 0 < |z| - T := by linarith
          intro h; rw [sub_add_cancel] at h
          exact (abs_pos.mpr (ne_of_lt hz)).ne' h
        rw [hsz, if_neg hne, if_neg (not_lt.mpr (le_of_lt hz)), if_pos hz]
        rw [sub_add_cancel, habs]
        have hz0 : z ≠ 0 := ne_of_lt hz
        have hzz : z / -z = -1 := by rw [div_neg, div_self hz0]
        calc (-z - T) / -z * z = (-z - T) * (z / -z) := by ring
          _ = -1 * (-z - T) := by rw [hzz]; ring
    · subst hz
      simp [pySign, abs_of_nonneg, hT]
    · by_cases hle : |z| ≤ T
      · have hsz : max (|z| - T) 0 = 0 := max_eq_right (by linarith)
        have habs : 0 < |z| := abs_pos.mpr (ne_of_gt hz)
        have hTpos : 0 < T := lt_of_lt_of_le habs hle
        simp only [hsz, zero_add, if_pos hz]
        rw [if_neg (ne_of_gt hTpos)]
        simp
      · push_neg at hle
        have hsz : max (|z| - T) 0 = |z| - T := max_eq_left (by linarith)
        have habs : |z| = z := abs_of_pos hz
        have hne : |z| - T + T ≠ 0 := by
          have : 0 < |z| - T := by linarith
          intro h; rw [sub_add_cancel] at h
          exact (abs_pos.mpr (ne_of_gt hz)).ne' h
        rw [hsz, if_neg hne, if_pos hz]
        rw [sub_add_cancel, habs]
        have hz0 : z ≠ 0 := ne_of_gt hz
        field_simp
        try ring
  · unfold softThreshold
    by_cases hz : z = 0
    · simp [hz]
    · have habs : max (|z| - 0) 0 = |z| := by
        simp [max_eq_left (abs_nonneg z)]
      simp only [habs, add_zero]
      rw [if_neg (abs_ne_zero.mpr hz)]
      rw [div_self (abs_ne_zero.mpr hz), one_mul]
  · unfold softThreshold
    have : max (|(0 : ℚ)| - T) 0 = 0 := by
      simp [max_eq_right]
      linarith
    simp [this]

/-- Witness for C6 at `z = -2`, `T = 1` (the docstring example value). -/
theorem soft_threshold_spec_witness :
    softThreshold (-2) 1 = softThresholdSpecForm (-2) 1 ∧
    softThreshold (-2) 0 = -2 ∧ softThreshold 0 1 = 0 :=
  soft_threshold_spec (-2) 1 (by norm_num)

/-! ## Finite-difference stencils (`norm_tv._grad1d` lines 527-555,
`norm_tv._div1d` lines 936-966)

Two-dimensional NumPy arrays are embedded as lists of rows over a ring.
All axis weights are the default `1`, so the `*= kwargs[...]` statements
are identities (their `KeyError` branch only prints a diagnostic). -/

/-- Subtraction of two rows, `r1 - r0` elementwise (NumPy truncates
nothing here; the embedded calls always pass equal-length rows). -/
def rowSub {α : Type} [Ring α] (r1 r0 : List α) : List α :=
  List.zipWith (fun a b => a - b) r1 r0

/-- Axis-0 forward difference `dx` of `_grad1d`:
`np.concatenate((x[1:, :] - x[:-1, :], np.zeros((1, shape[1]))), axis=0)`. -/
def grad1dDx {α : Type} [Ring α] (x : List (List α)) : List (List α) :=
  List.zipWith rowSub (x.drop 1) x ++ [List.replicate x.headI.length 0]

/-- Axis-1 forward difference `dy` of `_grad1d`:
`np.concatenate((x[:, 1:] - x[:, :-1], np.zeros((shape[0], 1))), axis=1)`. -/
def grad1dDy {α : Type} [Ring α] (x : List (List α)) : List (List α) :=
  x.map (fun r => List.zipWith (fun a b => a - b) (r.drop 1) r ++ [0])

/-- Axis-0 divergence of `_div1d` applied to its single positional
argument `dx`:
`np.concatenate((np.expand_dims(dx[0, :], axis=0), dx[1:-2, :] - dx[:-3, :],
np.expand_dims(-dx[-2, :], axis=0)), axis=0)`.
The Python slices `dx[1:-2]` and `dx[:-3]` become
`(dx.drop 1).take (dx.length - 3)` and `dx.take (dx.length - 3)`, and
`dx[-2]` becomes the element at index `dx.length - 2`. -/
def div1dDx {α : Type} [Ring α] (dx : List (List α)) : List (List α) :=
  [dx.headI] ++
    List.zipWith rowSub ((dx.drop 1).take (dx.length - 3)) (dx.take (dx.length - 3)) ++
    [(dx.getD (dx.length - 2) []).map (fun a => -a)]

/-- Frobenius inner product of two equally shaped matrices, the `⟨·,·⟩`
of the adjointness claim. -/
def matDot {α : Type} [Ring α] (a b : List (List α)) : α :=
  (List.zipWith (fun r1 r2 => (List.zipWith (fun u v => u * v) r1 r2).sum) a b).sum

/-- C3 (code yields the opposite): for a 3-row input the `_div1d` output
has 2 rows, not 3 — its interior slice is `dx[1:-2] - dx[:-3]` — so the
divergence does not match the input shape and the pairing
`⟨gradient(x, 1), p⟩ = ⟨x, divergence(p)⟩` is not even well-formed; in the
one case where shapes do agree (2 rows) the two inner products have
opposite signs (`1` versus `-1` below). -/
theorem tv_div1d_shape_and_adjointness_fail :
    (div1dDx ([[1], [0], [0]] : List (List ℤ))).length = 2 ∧
    ([[1], [2], [3]] : List (List ℤ)).length = 3 ∧
    matDot (grad1dDx ([[0], [1]] : List (List ℤ))) [[1], [0]] = 1 ∧
    matDot ([[0], [1]] : List (List ℤ)) (div1dDx [[1], [0]]) = -1 := by
  refine ⟨rfl, rfl, by decide, by decide⟩

/-! ## Loop counters of `norm_tv._eval` (lines 450-461) and
`norm_tv._prox` (lines 848-881)

`_eval` runs `i = 0` and then `while i <= dim: y = np.sum(y, 0)`; the body
never assigns `i`.  `_prox` runs `iter = 0` and then
`while iter <= maxit: ...`; no statement of the body assigns `iter`.  Each
step function below is the (identity) effect of one body execution on the
loop counter. -/

/-- Effect of one `_prox` loop-body execution on `iter` (lines 850-881
contain no assignment to `iter`). -/
def tvProxIterStep (it : ℕ) : ℕ := it

/-- Value of `iter` after `n` executions of the `_prox` loop body. -/
def tvProxIterAfter : ℕ → ℕ
  | 0 => 0
  | n + 1 => tvProxIterStep (tvProxIterAfter n)

/-- Effect of one `_eval` loop-body execution on `i` (line 460 only
reassigns `y`). -/
def tvEvalIStep (i : ℕ) : ℕ := i

/-- Value of `i` after `n` executions of the `_eval` loop body. -/
def tvEvalIAfter : ℕ → ℕ
  | 0 => 0
  | n + 1 => tvEvalIStep (tvEvalIAfter n)

/-- One execution of `y = np.sum(y, 0)` in the `_eval` while loop, indexed
by the number of axes `y` still has: on a 0-d array NumPy raises
`AxisError`, otherwise the axis count drops by one and the loop (whose
guard `i <= dim` stays true, `i` being stuck at 0) runs again. -/
def tvEvalSumLoop : ℕ → Except PyErr ℝ
  | 0 => .error .axisError
  | n + 1 => tvEvalSumLoop n

theorem tvProxIterAfter_eq_zero (n : ℕ) : tvProxIterAfter n = 0 := by
  induction n with
  | zero => rfl
  | succ n ih => simpa [tvProxIterAfter, tvProxIterStep] using ih

theorem tvEvalIAfter_eq_zero (n : ℕ) : tvEvalIAfter n = 0 := by
  induction n with
  | zero => rfl
  | succ n ih => simpa [tvEvalIAfter, tvEvalIStep] using ih

/-- C2 (code yields the opposite): the loop counters of `norm_tv._prox`
and `norm_tv._eval` are never advanced, so after any number `n` of body
executions the guards `iter <= maxit` and `i <= dim` still hold — the
`maxit` cap can never fire (no `MAX_IT` exit) and the only way out of the
`_eval` while loop is the `AxisError` raised once `np.sum` has exhausted
every axis. -/
theorem tv_loops_never_bounded_by_caps (n maxit dim : ℕ) :
    tvProxIterAfter n ≤ maxit ∧ tvEvalIAfter n ≤ dim ∧
    tvEvalSumLoop n = .error .axisError := by
  refine ⟨?_, ?_, ?_⟩
  · simp [tvProxIterAfter_eq_zero]
  · simp [tvEvalIAfter_eq_zero]
  · induction n with
    | zero => rfl
    | succ n ih => simpa [tvEvalSumLoop] using ih

/-! ## Dimension dispatch of `norm_tv._grad` (lines 489-497) -/

/-- The four concrete gradient routines `_grad` can route to. -/
inductive TvGradRoutine where
  | grad1d
  | grad2d
  | grad3d
  | grad4d
  deriving DecidableEq, Repr

/-- Dispatch of `norm_tv._grad` on `len(x.shape)`: a 2-D array goes to
`_grad1d`, ..., a 5-D array to `_grad4d`; any other rank falls off the
`if`/`elif` chain and the method returns `None` (embedded as `none`),
whatever `dim` is. -/
def tvGradDispatch (ndim : ℕ) : Option TvGradRoutine :=
  if ndim = 2 then some .grad1d
  else if ndim = 3 then some .grad2d
  else if ndim = 4 then some .grad3d
  else if ndim = 5 then some .grad4d
  else none

/-- C10: `norm_tv.grad` returns `None` (no gradient, no error) whenever
the array rank is outside 2..5, and the dispatch needs one more array
axis than the gradient dimensionality: rank 2 is routed to the 1-D
routine and rank 5 to the 4-D routine. -/
theorem tv_grad_dispatch_none_outside_2_5 (n : ℕ) :
    (¬(2 ≤ n ∧ n ≤ 5) → tvGradDispatch n = none) ∧
    tvGradDispatch 2 = some .grad1d ∧ tvGradDispatch 5 = some .grad4d := by
  refine ⟨?_, rfl, rfl⟩
  intro h
  unfold tvGradDispatch
  have h2 : n ≠ 2 := by rintro rfl; exact h (by omega)
  have h3 : n ≠ 3 := by rintro rfl; exact h (by omega)
  have h4 : n ≠ 4 := by rintro rfl; exact h (by omega)
  have h5 : n ≠ 5 := by rintro rfl; exact h (by omega)
  simp [h2, h3, h4, h5]

/-- Witness for C10 at rank 7 (and rank 1). -/
theorem tv_grad_dispatch_none_outside_2_5_witness :
    tvGradDispatch 7 = none ∧ tvGradDispatch 1 = none :=
  ⟨(tv_grad_dispatch_none_outside_2_5 7).1 (by omega),
   (tv_grad_dispatch_none_outside_2_5 1).1 (by omega)⟩

/-! ## Embedding of `norm_tv._prox` (lines 796-894) for `dim = 2` on 2-D
arrays — the only dimensionality where the unpacking
`r, s = self.grad(x, dim)` succeeds.  Real-valued matrices are used
because `_eval` applies `np.sqrt`. -/

/-- Real-valued matrix (2-D `ndarray`), list of rows. -/
abbrev RMat := List (List ℝ)

/-- Map a scalar function over every entry of a matrix. -/
def matMap (f : ℝ → ℝ) (m : RMat) : RMat := m.map (fun r => r.map f)

/-- Elementwise matrix sum (shapes agree on the embedded paths). -/
def matAdd (a b : RMat) : RMat :=
  List.zipWith (fun r1 r2 => List.zipWith (fun u v => u + v) r1 r2) a b

/-- Zero array of the same shape as `m` (the `y = 0` accumulator of
`_eval` after its first broadcast addition). -/
def zerosLike (m : RMat) : RMat := matMap (fun _ => 0) m

/-- Entries of the Python list `grads` in `norm_tv._eval`: it mixes
`ndarray` values with the initial placeholder strings. -/
inductive TvGradEntry where
  | arr (m : RMat)
  | label (s : String)

/-- Initial value `grads = ['dx', 'dy', 'dz', 'dt']` in `_eval`. -/
def tvEvalGradsInit : List TvGradEntry :=
  [.label "dx", .label "dy", .label "dz", .label "dt"]

/-- Python slice assignment `l[:k] = new`: the first `k` elements are
replaced by the elements of `new` (whose count may differ). -/
def pySliceAssign (l : List TvGradEntry) (k : ℕ) (new : List TvGradEntry) :
    List TvGradEntry :=
  new ++ l.drop k

/-- The `grads` list of `_eval` after `grads[:dim+1] = n.grad(x, dim)`
for `dim = 2` on a 2-D array: `n.grad` returns the pair `(dx, dy)`, so the
trailing placeholder string `'dt'` survives the slice assignment. -/
def tvEvalGrads (x : RMat) : List TvGradEntry :=
  pySliceAssign tvEvalGradsInit 3 [.arr (grad1dDx x), .arr (grad1dDy x)]

/-- The `for g in grads` loop of `_eval`:
`y += np.power(abs(g), 2); y = np.sqrt(y)`.  `abs()` of a leftover
placeholder string raises `TypeError`. -/
noncomputable def tvEvalLoop (y : RMat) : List TvGradEntry → Except PyErr RMat
  | [] => .ok y
  | .label _ :: _ => .error .typeError
  | .arr g :: rest =>
      tvEvalLoop (matMap Real.sqrt (matAdd y (matMap (fun a => |a| ^ 2) g))) rest

/-- `norm_tv._eval(x, dim)` for `dim = 2` on a 2-D array: build `grads`,
run the accumulation loop, then the `while i <= dim` summation loop
(which, if ever reached, ends in `AxisError` — see `tvEvalSumLoop`; a 2-D
`y` has two axes). -/
noncomputable def tvEval2 (x : RMat) : Except PyErr ℝ :=
  match tvEvalLoop (zerosLike x) (tvEvalGrads x) with
  | .error e => .error e
  | .ok _ => tvEvalSumLoop 2

/-- NumPy subtraction `a - b` of 2-D arrays with broadcasting along
axis 0 (column counts agree on the embedded path): equal row counts
subtract rowwise, a single-row operand is broadcast, anything else raises
`ValueError`. -/
def pyBroadcastSub (a b : RMat) : Except PyErr RMat :=
  if a.length = b.length then .ok (List.zipWith rowSub a b)
  else if b.length = 1 then .ok (a.map (fun r => rowSub r b.headI))
  else if a.length = 1 then .ok (b.map (fun r => rowSub a.headI r))
  else .error .valueError

/-- The attribute access `prev_obj.divide(obj)` on line 855: `prev_obj`
is the Python `int` `0`, which has no attribute `divide`, so the call
raises `AttributeError`. -/
def intDivideMethod (_prevObj : ℤ) (_obj : ℝ) : Except PyErr ℝ :=
  .error .attributeError

/-- Frobenius norm `np.linalg.norm` of a 2-D array. -/
noncomputable def frobNorm (m : RMat) : ℝ :=
  Real.sqrt ((m.map (fun r => (r.map (fun a => a ^ 2)).sum)).sum)

/-- The body of the `norm_tv._prox` inner loop for `dim = 2`, as executed
on its first iteration (all weights are the default 1):
`r, s = self.grad(x, dim)`; `sol = x - T * self.div(r, s, **kweights)`
where `self.div(r, s, ...)` calls `_div(self, dim, *args, ...)` so `r` is
consumed as the `dim` parameter and only `s` reaches `_div1d`;
`obj = .5 * np.linalg.norm(x[:] - sol[:]) + T * self._eval(sol, dim, ...)`;
`rel_obj = np.abs(obj - prev_obj.divide(obj))`.  Every later statement of
the body (tolerance break, dual update, renormalization, extrapolation) is
unreachable because `_eval` always raises, hence the terminal `.ok sol` is
dead code kept only to close the monadic block. -/
noncomputable def tvProx2 (x : RMat) (T : ℝ) : Except PyErr RMat := do
  let r := grad1dDx x
  let s := grad1dDy x
  let d := div1dDx s
  let sol ← pyBroadcastSub x (matMap (fun a => T * a) d)
  let diff ← pyBroadcastSub x sol
  let ev ← tvEval2 sol
  let obj := (1 / 2) * frobNorm diff + T * ev
  let _relObj ← intDivideMethod 0 obj
  let _ := r
  .ok sol

set_option maxRecDepth 40000 in
/-- C1 (code yields the opposite): for the concrete input
`x = [[1, 1], [1, 1]]`, `T = 1`, `dim = 2`, the call
`norm_tv._prox(x, T, dim)` does not complete normally with a result
vector: its first inner iteration raises `TypeError`, because `_eval`
applies `abs()` to the placeholder string `'dt'` left in its `grads`
list.  (Had `_eval` returned, `prev_obj.divide(obj)` would raise
`AttributeError` next, and `_prox` would still return `None`: the method
body has no `return` statement.) -/
theorem tv_prox_raises_typeerror :
    tvProx2 [[1, 1], [1, 1]] 1 = .error .typeError := by
  rfl

/-! ## Dual renormalization of `norm_tv._prox` (lines 866-874)

`weights = np.amax(np.sqrt(np.abs(r)**2 + np.abs(s)**2))`;
`p = r / weights`; `q = s / weights`.  There is no guard on `weights`. -/

/-- Model of `np.amax` over the flattened entries (the embedded inputs
are nonempty arrays of nonnegative magnitudes, so folding `max` from `0`
agrees with NumPy's maximum). -/
def pyAmax (l : List ℝ) : ℝ := l.foldl max 0

/-- Elementwise combination of two equally shaped matrices. -/
def matZipWith (f : ℝ → ℝ → ℝ) (a b : RMat) : RMat :=
  List.zipWith (fun r1 r2 => List.zipWith f r1 r2) a b

/-- The renormalization divisor
`np.amax(np.sqrt(np.abs(r)**2 + np.abs(s)**2))`. -/
noncomputable def tvRenormW (r s : RMat) : ℝ :=
  pyAmax ((matZipWith (fun a b => Real.sqrt (|a| ^ 2 + |b| ^ 2)) r s).flatten)

/-- Float division whose non-finite results (`0/0` is NaN, `x/0` is
±Inf) are modeled as `none`. -/
noncomputable def pyDivNan (a b : ℝ) : Option ℝ :=
  if b = 0 then none else some (a / b)

/-- The renormalized dual component `p = r / weights`, elementwise. -/
noncomputable def tvRenormP (r s : RMat) : List (List (Option ℝ)) :=
  r.map (fun row => row.map (fun a => pyDivNan a (tvRenormW r s)))

set_option maxRecDepth 40000 in
/-- C4 (code yields the opposite): for a flat signal the dual gradients
are the zero matrices, the renormalization divisor
`np.amax(np.sqrt(|r|^2 + |s|^2))` is `0`, and the division `r / weights`
is `0/0` — NaN in every entry (`none` below), not the guarded zero
vector; moreover `_eval` of a constant array raises `TypeError` instead
of returning the TV value `0`, so `proximal` cannot return the input
unchanged. -/
theorem tv_renormalization_unguarded_nan :
    tvRenormW [[0, 0], [0, 0]] [[0, 0], [0, 0]] = 0 ∧
    tvRenormP [[0, 0], [0, 0]] [[0, 0], [0, 0]] = [[none, none], [none, none]] ∧
    tvEval2 [[1, 1], [1, 1]] = .error .typeError := by
  have hw : tvRenormW [[0, 0], [0, 0]] [[0, 0], [0, 0]] = 0 := by
    simp [tvRenormW, matZipWith, pyAmax, List.flatten]
  refine ⟨hw, ?_, rfl⟩
  simp [tvRenormP, pyDivNan, hw]

/-! ## FISTA extrapolation scalar (`norm_tv._prox` line 877 and
`proj_b2._prox` line 1324) -/

/-- The `norm_tv._prox` update `t = (1 + np.sqrt(4*told**2))/2`. -/
noncomputable def tvFistaT (told : ℝ) : ℝ :=
  (1 + Real.sqrt (4 * told ^ 2)) / 2

/-- The `proj_b2._prox` update `t = (1. + np.sqrt(1.+4.*t_last**2.)) / 2.`. -/
noncomputable def projB2FistaT (tlast : ℝ) : ℝ :=
  (1 + Real.sqrt (1 + 4 * tlast ^ 2)) / 2

/-- C5 (code yields the opposite in one of the two paths): at the initial
momentum value `t_old = 1`, `proj_b2` computes the claimed
`(1 + sqrt(1 + 4 t_old^2))/2 = (1 + sqrt 5)/2`, but `norm_tv` computes
`(1 + sqrt(4 t_old^2))/2 = 3/2` — the `1 +` under the radical is missing
from line 877 — so the two FISTA scalars differ. -/
theorem fista_t_update_mismatch :
    tvFistaT 1 = 3 / 2 ∧ projB2FistaT 1 = (1 + Real.sqrt 5) / 2 ∧
    tvFistaT 1 ≠ projB2FistaT 1 := by
  have h4 : Real.sqrt (4 * (1 : ℝ) ^ 2) = 2 := by
    rw [show (4 : ℝ) * 1 ^ 2 = 2 ^ 2 by norm_num]
    exact Real.sqrt_sq (by norm_num)
  have h5 : Real.sqrt (1 + 4 * (1 : ℝ) ^ 2) = Real.sqrt 5 := by norm_num
  have hne : Real.sqrt 5 ≠ 2 := by
    intro h
    have h2 : Real.sqrt 5 ^ 2 = (5 : ℝ) := Real.sq_sqrt (by norm_num)
    rw [h] at h2
    norm_num at h2
  refine ⟨?_, ?_, ?_⟩
  · rw [tvFistaT, h4]; norm_num
  · rw [projB2FistaT, h5]
  · rw [tvFistaT, projB2FistaT, h4, h5]
    intro h
    have : Real.sqrt 5 = 2 := by
      field_simp at h
      linarith
    exact hne this

/-! ## Function-object interface: `func.cap` (lines 244-277) and `dummy`
(lines 301-312)

A function object is embedded as its three primitive methods at a probe
point; a method not overridden by a subtype is the base-class stub
raising `NotImplementedError`. -/

/-- Capabilities reported by `func.cap`. -/
inductive Capability where
  | EVAL
  | GRAD
  | PROX
  deriving DecidableEq, Repr, BEq

/-- A function object, reduced to its three primitive operations on
rational vectors. -/
structure FuncObj where
  evalFn : List ℚ → Except PyErr ℚ
  gradFn : List ℚ → Except PyErr (List ℚ)
  proxFn : List ℚ → ℚ → Except PyErr (List ℚ)

/-- Third probe of `cap`: `try: self.prox(x, 1) except NotImplementedError:
cap.remove('PROX')`; any other exception propagates. -/
def capTryProx (f : FuncObj) (x : List ℚ) (c : List Capability) :
    Except PyErr (List Capability) :=
  match f.proxFn x 1 with
  | .ok _ => .ok c
  | .error .notImplemented => .ok (c.erase .PROX)
  | .error e => .error e

/-- Second probe of `cap`: `try: self.grad(x) except NotImplementedError:
cap.remove('GRAD')`; any other exception propagates. -/
def capTryGrad (f : FuncObj) (x : List ℚ) (c : List Capability) :
    Except PyErr (List Capability) :=
  match f.gradFn x with
  | .ok _ => capTryProx f x c
  | .error .notImplemented => capTryProx f x (c.erase .GRAD)
  | .error e => .error e

/-- `func.cap(x)`: start from `['EVAL', 'GRAD', 'PROX']` and probe the
three primitives in turn, removing the entry whose probe raises
`NotImplementedError`; other exceptions abort the probe sequence. -/
def cap (f : FuncObj) (x : List ℚ) : Except PyErr (List Capability) :=
  match f.evalFn x with
  | .ok _ => capTryGrad f x [.EVAL, .GRAD, .PROX]
  | .error .notImplemented => capTryGrad f x ([.EVAL, .GRAD, .PROX].erase .EVAL)
  | .error e => .error e

/-- The `dummy` function object: `_eval` returns `0`, `_prox` returns its
input, `_grad` returns a zero array of the input's shape. -/
def dummyObj : FuncObj where
  evalFn := fun _ => .ok 0
  gradFn := fun x => .ok (x.map (fun _ => 0))
  proxFn := fun x _ => .ok x

/-- A probe result is benign when it either succeeded or raised exactly
`NotImplementedError`. -/
def benign {A : Type} (r : Except PyErr A) : Prop :=
  (∃ v, r = .ok v) ∨ r = .error .notImplemented

/-- All three probes of `cap` at `x` are benign. -/
def benign3 (f : FuncObj) (x : List ℚ) : Prop :=
  benign (f.evalFn x) ∧ benign (f.gradFn x) ∧ benign (f.proxFn x 1)

/-- The subset of `['EVAL', 'GRAD', 'PROX']` whose operations succeed at
the probe point. -/
def capExpected (f : FuncObj) (x : List ℚ) : List Capability :=
  (if (f.evalFn x).isOk then [Capability.EVAL] else []) ++
    (if (f.gradFn x).isOk then [Capability.GRAD] else []) ++
    (if (f.proxFn x 1).isOk then [Capability.PROX] else [])

theorem benign_error_eq {A : Type} {e : PyErr}
    (h : benign (Except.error e : Except PyErr A)) : e = PyErr.notImplemented := by
  rcases h with ⟨v, hv⟩ | h
  · exact absurd hv (by simp)
  · injection h

theorem not_benign_elim {A : Type} {r : Except PyErr A} (h : ¬ benign r) :
    ∃ e, r = .error e ∧ e ≠ PyErr.notImplemented := by
  rcases r with e | v
  · exact ⟨e, rfl, fun he => h (Or.inr (by rw [he]))⟩
  · exact absurd (Or.inl ⟨v, rfl⟩) h

theorem capTryProx_foreign {f : FuncObj} {x : List ℚ} {e : PyErr}
    (c : List Capability) (hp : f.proxFn x 1 = .error e)
    (hne : e ≠ PyErr.notImplemented) : capTryProx f x c = .error e := by
  unfold capTryProx
  rw [hp]
  cases e <;> simp_all

theorem capTryGrad_foreign {f : FuncObj} {x : List ℚ} {e : PyErr}
    (c : List Capability) (hg : f.gradFn x = .error e)
    (hne : e ≠ PyErr.notImplemented) : capTryGrad f x c = .error e := by
  unfold capTryGrad
  rw [hg]
  cases e <;> simp_all

theorem capTryGrad_benign {f : FuncObj} {x : List ℚ}
    (c : List Capability) (hg : benign (f.gradFn x)) :
    ∃ c2, capTryGrad f x c = capTryProx f x c2 := by
  unfold capTryGrad
  rcases hg with ⟨v, hv⟩ | hg
  · rw [hv]; exact ⟨c, rfl⟩
  · rw [hg]; exact ⟨c.erase .GRAD, rfl⟩

theorem cap_benign_eval {f : FuncObj} {x : List ℚ} (he : benign (f.evalFn x)) :
    ∃ c, cap f x = capTryGrad f x c := by
  unfold cap
  rcases he with ⟨v, hv⟩ | he
  · rw [hv]; exact ⟨_, rfl⟩
  · rw [he]; exact ⟨_, rfl⟩

/-- C8: when no probe raises a foreign exception, `cap` returns exactly
the subset of `{EVAL, GRAD, PROX}` whose operations complete without
`NotImplementedError`; when some probe raises a foreign exception, `cap`
propagates an error (never an absorbed `NotImplementedError`); and
`dummy().cap(x)` reports all three capabilities at every probe point. -/
theorem cap_exact_capabilities :
    (∀ (f : FuncObj) (x : List ℚ), benign3 f x → cap f x = .ok (capExpected f x)) ∧
    (∀ (f : FuncObj) (x : List ℚ), ¬ benign3 f x →
      ∃ e, cap f x = .error e ∧ e ≠ PyErr.notImplemented) ∧
    (∀ x : List ℚ, cap dummyObj x = .ok [.EVAL, .GRAD, .PROX]) := by
  refine ⟨?_, ?_, fun _ => rfl⟩
  · intro f x h
    obtain ⟨h1, h2, h3⟩ := h
    unfold cap capTryGrad capTryProx capExpected
    rcases he : f.evalFn x with e | v
    · rw [he] at h1
      have h4 := benign_error_eq h1
      subst h4
      rcases hg : f.gradFn x with e2 | w
      · rw [hg] at h2
        have h4 := benign_error_eq h2
        subst h4
        rcases hp : f.proxFn x 1 with e3 | u
        · rw [hp] at h3
          have h4 := benign_error_eq h3
          subst h4
          rfl
        · rfl
      · rcases hp : f.proxFn x 1 with e3 | u
        · rw [hp] at h3
          have h4 := benign_error_eq h3
          subst h4
          rfl
        · rfl
    · rcases hg : f.gradFn x with e2 | w
      · rw [hg] at h2
        have h4 := benign_error_eq h2
        subst h4
        rcases hp : f.proxFn x 1 with e3 | u
        · rw [hp] at h3
          have h4 := benign_error_eq h3
          subst h4
          rfl
        · rfl
      · rcases hp : f.proxFn x 1 with e3 | u
        · rw [hp] at h3
          have h4 := benign_error_eq h3
          subst h4
          rfl
        · rfl
  · intro f x h
    by_cases h1 : benign (f.evalFn x)
    · by_cases h2 : benign (f.gradFn x)
      · have h3 : ¬ benign (f.proxFn x 1) := fun h3 => h ⟨h1, h2, h3⟩
        obtain ⟨e, hp, hne⟩ := not_benign_elim h3
        obtain ⟨c, hc⟩ := cap_benign_eval h1
        obtain ⟨c2, hc2⟩ := capTryGrad_benign c h2
        exact ⟨e, by rw [hc, hc2, capTryProx_foreign c2 hp hne], hne⟩
      · obtain ⟨e, hg, hne⟩ := not_benign_elim h2
        obtain ⟨c, hc⟩ := cap_benign_eval h1
        exact ⟨e, by rw [hc, capTryGrad_foreign c hg hne], hne⟩
    · obtain ⟨e, he, hne⟩ := not_benign_elim h1
      refine ⟨e, ?_, hne⟩
      unfold cap
      rw [he]
      cases e <;> simp_all

/-- Witness for C8: `cap` on `dummy` (via the main clause, hypothesis
discharged at the concrete probe point `[1, 2]`) returns all three
capabilities. -/
theorem cap_exact_capabilities_witness :
    cap dummyObj [1, 2] = .ok (capExpected dummyObj [1, 2]) ∧
    cap dummyObj [1, 2] = .ok [.EVAL, .GRAD, .PROX] :=
  ⟨cap_exact_capabilities.1 dummyObj [1, 2]
     ⟨Or.inl ⟨0, rfl⟩, Or.inl ⟨_, rfl⟩, Or.inl ⟨_, rfl⟩⟩,
   cap_exact_capabilities.2.2 [1, 2]⟩

/-! ## `norm_l1._prox` (lines 373-382) and `norm_l2._prox` (lines
426-434)

Configuration fields mirror the `func`/`norm` constructors; the weight
`w` is kept scalar (its default).  Vectors are rational lists. -/

/-- Elementwise vector subtraction. -/
def vSubQ (a b : List ℚ) : List ℚ := List.zipWith (fun u v => u - v) a b

/-- Elementwise vector addition. -/
def vAddQ (a b : List ℚ) : List ℚ := List.zipWith (fun u v => u + v) a b

/-- Configuration of a `norm` function object. -/
structure NormCfg where
  lambda_ : ℚ
  w : ℚ
  nu : ℚ
  tight : Bool
  y : List ℚ
  A : List ℚ → List ℚ
  At : List ℚ → List ℚ

/-- `norm_l1._prox(x, T)`: `gamma = lambda_ * T`; if tight,
`sol = A(x) - y`; `sol = _soft_threshold(sol, gamma*nu*w) - sol`;
`sol = x + At(sol) / nu`; else raise `NotImplementedError`. -/
def l1Prox (c : NormCfg) (x : List ℚ) (T : ℚ) : Except PyErr (List ℚ) :=
  let gamma := c.lambda_ * T
  if c.tight then
    let sol := vSubQ (c.A x) c.y
    let sol2 := vSubQ (sol.map (fun z => softThreshold z (gamma * c.nu * c.w))) sol
    .ok (vAddQ x ((c.At sol2).map (fun a => a / c.nu)))
  else .error .notImplemented

/-- `norm_l2._prox(x, T)`: `gamma = lambda_ * T`; if tight,
`sol = x + 2*gamma*At(y*w**2)` then `sol /= 1 + 2*gamma*nu*w**2`; else
raise `NotImplementedError`. -/
def l2Prox (c : NormCfg) (x : List ℚ) (T : ℚ) : Except PyErr (List ℚ) :=
  let gamma := c.lambda_ * T
  if c.tight then
    let sol := vAddQ x ((c.At (c.y.map (fun a => a * c.w ^ 2))).map (fun a => 2 * gamma * a))
    .ok (sol.map (fun a => a / (1 + 2 * gamma * c.nu * c.w ^ 2)))
  else .error .notImplemented

/-- C7: for every configuration, input and step `T > 0`, the proximal
operators of `norm_l1` and `norm_l2` raise `NotImplementedError` exactly
when `tight` is false, and return a closed-form result (no error, no
silent approximation) when `tight` is true. -/
theorem norm_prox_tight_iff_ok (c : NormCfg) (x : List ℚ) (T : ℚ)
    (hT : 0 < T) :
    ((l1Prox c x T).isOk = true ↔ c.tight = true) ∧
    ((l2Prox c x T).isOk = true ↔ c.tight = true) ∧
    (c.tight = false →
      l1Prox c x T = .error .notImplemented ∧
      l2Prox c x T = .error .notImplemented) := by
  rcases hc : c.tight
  · simp [l1Prox, l2Prox, hc, Except.isOk, Except.toBool]
  · simp [l1Prox, l2Prox, hc, Except.isOk, Except.toBool]

/-- A tight configuration with identity operator, matching the docstring
example `norm_l1().prox([1, 2, 3, 4], 1)`. -/
def tightCfg : NormCfg where
  lambda_ := 1
  w := 1
  nu := 1
  tight := true
  y := [0, 0, 0, 0]
  A := fun v => v
  At := fun v => v

/-- The same configuration with `tight = False`. -/
def looseCfg : NormCfg := { tightCfg with tight := false }

/-- Witness for C7: the tight configuration succeeds (and reproduces the
docstring value `[0, 1, 2, 3]`), the non-tight one raises. -/
theorem norm_prox_tight_iff_ok_witness :
    (l1Prox tightCfg [1, 2, 3, 4] 1).isOk = true ∧
    l1Prox tightCfg [1, 2, 3, 4] 1 = .ok [0, 1, 2, 3] ∧
    l1Prox looseCfg [1, 2, 3, 4] 1 = .error .notImplemented ∧
    l2Prox looseCfg [1, 2, 3, 4] 1 = .error .notImplemented := by
  refine ⟨(norm_prox_tight_iff_ok tightCfg [1, 2, 3, 4] 1 (by norm_num)).1.mpr rfl,
    ?_, ((norm_prox_tight_iff_ok looseCfg [1, 2, 3, 4] 1 (by norm_num)).2.2 rfl).1,
    ((norm_prox_tight_iff_ok looseCfg [1, 2, 3, 4] 1 (by norm_num)).2.2 rfl).2⟩
  show Except.ok (vAddQ [1, 2, 3, 4] _) = _
  norm_num [l1Prox, tightCfg, vSubQ, vAddQ, softThreshold]

/-! ## `proj_b2._prox` (lines 1268-1345)

Real-valued vectors, since the stopping tests compare Euclidean norms.
`A`/`At` are operator-form functions as normalized by the `func`
constructor. -/

/-- Elementwise vector subtraction over the reals. -/
def vSub (a b : List ℝ) : List ℝ := List.zipWith (fun u v => u - v) a b

/-- Elementwise vector addition over the reals. -/
def vAdd (a b : List ℝ) : List ℝ := List.zipWith (fun u v => u + v) a b

/-- Scalar multiple of a vector. -/
def vSmul (c : ℝ) (v : List ℝ) : List ℝ := v.map (fun a => c * a)

/-- Euclidean norm `np.linalg.norm(v, 2)`. -/
noncomputable def norm2 (v : List ℝ) : ℝ :=
  Real.sqrt ((v.map (fun a => a ^ 2)).sum)

/-- The scaling factor `min(1, epsilon / n)` where `n` is a NumPy float
norm: when `n = 0`, the float quotient is `inf` (positive `epsilon`) or
`nan` (`epsilon = 0`), and Python's builtin `min(1, inf) = min(1, nan) =
1`, so the factor is `1` in either case. -/
noncomputable def pyMinOneDiv (eps n : ℝ) : ℝ :=
  if n = 0 then 1 else min 1 (eps / n)

/-- The acceleration scheme selected by the `method` parameter. -/
inductive ProjMethod where
  | FISTA
  | ISTA

/-- Configuration of a `proj_b2` function object. -/
structure ProjB2Cfg where
  y : List ℝ
  A : List ℝ → List ℝ
  At : List ℝ → List ℝ
  tight : Bool
  nu : ℝ
  epsilon : ℝ
  tol : ℝ
  maxit : ℕ
  method : ProjMethod

/-- One-or-more iterations of the non-tight `while not crit` loop of
`proj_b2._prox`, with the remaining iteration budget as fuel (the code
increments `niter` each pass and sets `crit = 'MAXIT'` once
`niter >= maxit`): residual `res = A(sol) - y`; `res += u * nu`;
`ratio = min(1, epsilon/||res||)`; `v = (res - res*ratio) / nu`; FISTA
extrapolation with scalar `projB2FistaT` or plain `u = v` (ISTA);
`sol = x - At(u)`; stop with `TOL` when the entry norm lies in the
tolerance band, else continue. -/
noncomputable def projB2Loop (c : ProjB2Cfg) (x : List ℝ) :
    ℕ → List ℝ → List ℝ → List ℝ → ℝ → List ℝ
  | 0, sol, _, _, _ => sol
  | fuel + 1, sol, u, vlast, tlast =>
      let res := vSub (c.A sol) c.y
      let normRes := norm2 res
      let res2 := vAdd res (vSmul c.nu u)
      let normProj := norm2 res2
      let sc := pyMinOneDiv c.epsilon normProj
      let v := vSmul (1 / c.nu) (vSub res2 (vSmul sc res2))
      let next :=
        match c.method with
        | .FISTA =>
            let t := projB2FistaT tlast
            (vAdd v (vSmul ((tlast - 1) / t) (vSub v vlast)), v, t)
        | .ISTA => (v, vlast, tlast)
      let sol2 := vSub x (c.At next.1)
      if c.epsilon / (1 + c.tol) ≤ normRes ∧ normRes ≤ c.epsilon / (1 - c.tol)
      then sol2
      else projB2Loop c x fuel sol2 next.1 next.2.1 next.2.2

/-- `proj_b2._prox(x, T)`.  Tight branch: `tmp1 = A(x) - y`;
`tmp2 = tmp1 * min(1, epsilon/||tmp1||)`; `sol = x + At(tmp2 - tmp1)/nu`.
Non-tight branch: start from `sol = x`, `u = 0`; if
`||y - A(sol)|| <= epsilon/(1 - tol)` the criterion is `'INBALL'` and the
loop body never runs; otherwise iterate `projB2Loop` up to `maxit`
times. -/
noncomputable def projB2Prox (c : ProjB2Cfg) (x : List ℝ) (_T : ℝ) : List ℝ :=
  if c.tight then
    let tmp1 := vSub (c.A x) c.y
    let tmp2 := vSmul (pyMinOneDiv c.epsilon (norm2 tmp1)) tmp1
    vAdd x ((c.At (vSub tmp2 tmp1)).map (fun a => a / c.nu))
  else
    let sol := x
    let u := List.replicate c.y.length (0 : ℝ)
    let epsilonUp := c.epsilon / (1 - c.tol)
    if norm2 (vSub c.y (c.A sol)) ≤ epsilonUp then sol
    else projB2Loop c x c.maxit sol u u 1

theorem norm2_nonneg (v : List ℝ) : 0 ≤ norm2 v := Real.sqrt_nonneg _

theorem norm2_neg_sub (a b : List ℝ) : norm2 (vSub a b) = norm2 (vSub b a) := by
  unfold norm2 vSub
  congr 1
  induction a generalizing b with
  | nil => cases b <;> simp
  | cons ha ta ih =>
      cases b with
      | nil => simp
      | cons hb tb =>
          simp only [List.zipWith, List.map, List.sum_cons, ih tb]
          ring

theorem vSub_self_smul_one (t : List ℝ) :
    vSub (vSmul 1 t) t = List.replicate t.length 0 := by
  induction t with
  | nil => rfl
  | cons h tl ih =>
      show (1 * h - h) :: vSub (vSmul 1 tl) tl = 0 :: List.replicate tl.length 0
      rw [ih]
      simp

theorem vAdd_replicate_zero (x : List ℝ) :
    vAdd x (List.replicate x.length 0) = x := by
  induction x with
  | nil => rfl
  | cons h tl ih =>
      show (h + 0) :: vAdd tl (List.replicate tl.length 0) = h :: tl
      rw [ih]
      simp

theorem map_div_replicate_zero (k : ℕ) (d : ℝ) :
    (List.replicate k (0 : ℝ)).map (fun a => a / d) = List.replicate k 0 := by
  induction k with
  | zero => rfl
  | succ n ih =>
      show (0 / d) :: (List.replicate n (0 : ℝ)).map (fun a => a / d) =
        0 :: List.replicate n 0
      rw [ih]
      simp

/-- C9: if `x` is already feasible (`||A(x) - y|| <= epsilon`) and
`0 < tol < 1`, then `proj_b2.prox(x, T)` returns `x` unchanged for every
step `T` — through the tight closed-form branch (whose scaling factor is
1, so the adjoint is applied to the zero residual; the hypothesis `hAt0`
states that the linear adjoint maps zero to zero at the relevant
lengths) and through the non-tight branch, which stops immediately on
entry with criterion `INBALL`. -/
theorem proj_b2_feasible_identity (c : ProjB2Cfg) (x : List ℝ) (T : ℝ)
    (hfeas : norm2 (vSub (c.A x) c.y) ≤ c.epsilon)
    (htol0 : 0 < c.tol) (htol1 : c.tol < 1)
    (hAt0 : c.At (List.replicate (vSub (c.A x) c.y).length 0) =
      List.replicate x.length 0) :
    projB2Prox c x T = x := by
  unfold projB2Prox
  rcases hc : c.tight
  · simp only [Bool.false_eq_true, if_false]
    have hflip : norm2 (vSub c.y (c.A x)) ≤ c.epsilon / (1 - c.tol) := by
      rw [norm2_neg_sub]
      refine le_trans hfeas ?_
      have h1t : 0 < 1 - c.tol := by linarith
      rw [le_div_iff₀ h1t]
      have heps : 0 ≤ c.epsilon := le_trans (norm2_nonneg _) hfeas
      nlinarith
    rw [if_pos hflip]
  · simp only [if_true]
    have hsc : pyMinOneDiv c.epsilon (norm2 (vSub (c.A x) c.y)) = 1 := by
      unfold pyMinOneDiv
      by_cases hz : norm2 (vSub (c.A x) c.y) = 0
      · rw [if_pos hz]
      · rw [if_neg hz]
        have hpos : 0 < norm2 (vSub (c.A x) c.y) :=
          lt_of_le_of_ne (norm2_nonneg _) (Ne.symm hz)
        have : (1 : ℝ) ≤ c.epsilon / norm2 (vSub (c.A x) c.y) :=
          (one_le_div hpos).mpr hfeas
        exact min_eq_left this
    rw [hsc, vSub_self_smul_one, hAt0, map_div_replicate_zero,
      vAdd_replicate_zero]

/-- A tight `proj_b2` configuration with identity operator,
`y = [1]`, `epsilon = 1`, `tol = 1/2`. -/
noncomputable def projCfgTight : ProjB2Cfg where
  y := [1]
  A := fun v => v
  At := fun v => v
  tight := true
  nu := 1
  epsilon := 1
  tol := 1 / 2
  maxit := 200
  method := .FISTA

/-- The same configuration on the non-tight path. -/
noncomputable def projCfgLoose : ProjB2Cfg := { projCfgTight with tight := false }

theorem projCfg_feas :
    norm2 (vSub (projCfgTight.A [1]) projCfgTight.y) ≤ projCfgTight.epsilon := by
  show norm2 (vSub [1] [1]) ≤ 1
  have h0 : vSub [(1 : ℝ)] [1] = [0] := by norm_num [vSub]
  rw [h0]
  have h1 : norm2 [(0 : ℝ)] = 0 := by simp [norm2]
  rw [h1]
  norm_num

theorem projCfgLoose_feas :
    norm2 (vSub (projCfgLoose.A [1]) projCfgLoose.y) ≤ projCfgLoose.epsilon :=
  projCfg_feas

/-- Witness for C9: the already-feasible point `x = [1]` (it satisfies
`A(x) = y`) is returned unchanged by both the tight and the non-tight
branch. -/
theorem proj_b2_feasible_identity_witness :
    projB2Prox projCfgTight [1] 1 = [1] ∧ projB2Prox projCfgLoose [1] 1 = [1] :=
  ⟨proj_b2_feasible_identity projCfgTight [1] 1 projCfg_feas
      (by norm_num [projCfgTight]) (by norm_num [projCfgTight]) rfl,
   proj_b2_feasible_identity projCfgLoose [1] 1 projCfgLoose_feas
      (by norm_num [projCfgLoose, projCfgTight])
      (by norm_num [projCfgLoose, projCfgTight]) rfl⟩
